import Mathlib

/-!
Shallow embedding of the valuation and ledger engine of
`LiquiDGD/cigar_inventory` (`src/main.py`), together with theorems settling
the frozen claims about its specification.

Conventions of the embedding:
* Python numbers are modelled as `ℚ` (prices, shipping, rates) and `ℤ`
  (counts); Python `float()` / `int()` conversions on heterogeneous inputs
  are modelled through the `PyVal` type below.
* A Python function that may raise an uncaught exception is modelled with
  an `Option` result: `none` stands for the uncaught exception, `some r`
  for a normal return of `r`.
* Wall-clock timestamps carried by records (`date` fields) are omitted:
  no computation in the engine reads them.
-/

namespace CigarInventory

/-- Value passed to `calculate_price_per_stick`: a Python number, a string
that parses as an integer literal, a string that parses as a float but not
as an integer, or a string that parses as neither. -/
inductive PyVal where
  | num (q : ℚ)
  | intStr (n : ℤ)
  | floatStr (q : ℚ)
  | badStr (s : String)
deriving DecidableEq

/-- Truncation toward zero: Python `int()` applied to a float. -/
def ratTrunc (q : ℚ) : ℤ := q.num.tdiv q.den

/-- Python `float(v)`: `none` models a raised `ValueError`/`TypeError`. -/
def pyFloat : PyVal → Option ℚ
  | .num q => some q
  | .intStr n => some (n : ℚ)
  | .floatStr q => some q
  | .badStr _ => none

/-- Python `int(v)`: `none` models a raised `ValueError`/`TypeError`
(a float-formatted string such as "3.5" is rejected by `int`). -/
def pyInt : PyVal → Option ℤ
  | .num q => some (ratTrunc q)
  | .intStr n => some n
  | .floatStr _ => none
  | .badStr _ => none

/-- Model of `CigarInventory.calculate_price_per_stick` (src/main.py:2488).
The body converts `price`/`shipping` with `float()` and `count` with
`int()` inside a `try` that catches `ValueError` and `TypeError` by
returning `0`; a zero or negative converted count returns `0`; otherwise
the result is `price/count * (1 + tax_rate) + shipping/shipping_quantity`
where `shipping_quantity` is `original_quantity` when that argument is not
`None` (used unconverted, so a string there raises a caught `TypeError`,
while a numeric zero there raises `ZeroDivisionError`, which the `except`
clause does not catch — modelled as `none`) and `count` otherwise. -/
def calculate_price_per_stick (tax_rate : ℚ) (price shipping count : PyVal)
    (original_quantity : Option PyVal) : Option ℚ :=
  match pyFloat price, pyFloat shipping, pyInt count with
  | some p, some s, some c =>
    if c ≤ 0 then some 0
    else
      match original_quantity with
      | none => some (p / (c : ℚ) * (1 + tax_rate) + s / (c : ℚ))
      | some (.num q) =>
          if q = 0 then none
          else some (p / (c : ℚ) * (1 + tax_rate) + s / q)
      | some _ => some 0
  | _, _, _ => some 0

/-- Per-unit cost on already-numeric inputs with `original_quantity`
omitted: the specialization of `calculate_price_per_stick` that every
internal caller of the engine uses (see `calc_pps_eq_unit_cost`). -/
def unit_cost (tax p s : ℚ) (c : ℤ) : ℚ :=
  if c ≤ 0 then 0 else p / (c : ℚ) * (1 + tax) + s / (c : ℚ)

theorem ratTrunc_intCast (c : ℤ) : ratTrunc (c : ℚ) = c := by
  simp [ratTrunc, Rat.num_intCast, Rat.den_intCast]

theorem pyInt_num_intCast (c : ℤ) : pyInt (.num (c : ℚ)) = some c := by
  simp [pyInt, ratTrunc_intCast]

/-- Bridging lemma: on numeric arguments with `original_quantity` omitted,
`calculate_price_per_stick` returns `unit_cost` and never raises. -/
theorem calc_pps_eq_unit_cost (tax p s : ℚ) (c : ℤ) :
    calculate_price_per_stick tax (.num p) (.num s) (.num (c : ℚ)) none =
      some (unit_cost tax p s c) := by
  simp only [calculate_price_per_stick, pyFloat, pyInt_num_intCast, unit_cost]
  split <;> rfl

/-- C1: with `originalQuantity` omitted, for price `p ≥ 0`, shipping
`s ≥ 0` and integer count `c > 0`, `computeUnitCost` returns
`(p/c)*(1+taxRate) + s/c`, `taxRate` being the process-wide rate passed
in as `tax`. -/
theorem C1_unit_cost_formula (tax p s : ℚ) (c : ℤ)
    (hp : 0 ≤ p) (hs : 0 ≤ s) (hc : 0 < c) :
    calculate_price_per_stick tax (.num p) (.num s) (.num (c : ℚ)) none =
      some (p / (c : ℚ) * (1 + tax) + s / (c : ℚ)) := by
  rw [calc_pps_eq_unit_cost, unit_cost, if_neg (by omega)]

/-- Witness for C1 at the spec's own scenario numbers: price 100,
shipping 10, count 10, tax rate 8.6%. -/
theorem C1_unit_cost_formula_witness :
    calculate_price_per_stick (43/500) (.num 100) (.num 10)
        (.num ((10 : ℤ) : ℚ)) none =
      some (100 / (((10 : ℤ)) : ℚ) * (1 + 43/500) + 10 / (((10 : ℤ)) : ℚ)) :=
  C1_unit_cost_formula (43/500) 100 10 10 (by norm_num) (by norm_num)
    (by norm_num)

/-- One element of a lot's `purchase_history` list, as appended by
`combine_cigar_purchases` (the wall-clock `date` field is omitted). -/
structure PurchaseEvent where
  count : ℤ
  price : ℚ
  shipping : ℚ
  price_per_stick : ℚ
deriving DecidableEq

/-- One inventory record (a lot), with the fields the engine reads and
writes. `original_quantity` is `Option` because legacy records may lack
the key. -/
structure Cigar where
  brand : String
  cigar : String
  size : String
  count : ℤ
  price : ℚ
  shipping : ℚ
  price_per_stick : ℚ
  original_quantity : Option ℤ
  purchase_history : List PurchaseEvent
deriving DecidableEq

/-- Model of `CigarInventory.combine_cigar_purchases` (src/main.py:3845).
When the existing count is positive, totals are summed, the unit cost is
recomputed by `self.calculate_price_per_stick(combined_price,
combined_shipping, combined_count)` — numeric arguments, no
`original_quantity`, hence `unit_cost` by `calc_pps_eq_unit_cost` — the
lot's `original_quantity` becomes the combined count, and a
`purchase_history` entry for the incoming purchase is appended.
When the existing count is zero or negative, the fields are overwritten
with the new values and no history entry is appended. -/
def combine_cigar_purchases (tax : ℚ) (existing : Cigar) (new_count : ℤ)
    (new_price new_shipping : ℚ) : Cigar :=
  let old_count := existing.count
  let old_price := existing.price
  let old_shipping := existing.shipping
  if 0 < old_count then
    let combined_count := old_count + new_count
    let combined_price := old_price + new_price
    let combined_shipping := old_shipping + new_shipping
    { existing with
      count := combined_count
      price := combined_price
      shipping := combined_shipping
      price_per_stick := unit_cost tax combined_price combined_shipping combined_count
      original_quantity := some combined_count
      purchase_history := existing.purchase_history ++
        [{ count := new_count, price := new_price, shipping := new_shipping,
           price_per_stick := unit_cost tax new_price new_shipping new_count }] }
  else
    { existing with
      count := new_count
      price := new_price
      shipping := new_shipping
      price_per_stick := unit_cost tax new_price new_shipping new_count
      original_quantity := some new_count }

/-- C2: merging a purchase of `nc ≥ 0` units at totals `np`/`ns` into a lot
with positive count sums count, price and shipping, sets
`original_quantity` to the combined count, and recomputes the unit cost
with the combined count as both the count and the shipping denominator. -/
theorem C2_merge_invariant (tax : ℚ) (L : Cigar) (nc : ℤ) (np ns : ℚ)
    (hL : 0 < L.count) (hnc : 0 ≤ nc) :
    (combine_cigar_purchases tax L nc np ns).count = L.count + nc ∧
    (combine_cigar_purchases tax L nc np ns).price = L.price + np ∧
    (combine_cigar_purchases tax L nc np ns).shipping = L.shipping + ns ∧
    (combine_cigar_purchases tax L nc np ns).original_quantity =
      some (L.count + nc) ∧
    (combine_cigar_purchases tax L nc np ns).price_per_stick =
      (L.price + np) / ((L.count + nc : ℤ) : ℚ) * (1 + tax) +
        (L.shipping + ns) / ((L.count + nc : ℤ) : ℚ) := by
  have hcc : ¬ (L.count + nc ≤ 0) := by omega
  simp [combine_cigar_purchases, if_pos hL, unit_cost, hcc]

/-- Witness for C2 at the spec §8 scenario: 10 units / $50 / $10 merged
with 5 units / $30 / $5 gives count 15, price 80, shipping 15,
original quantity 15. -/
theorem C2_merge_invariant_witness :
    (combine_cigar_purchases (43/500)
        { brand := "Padron", cigar := "1926", size := "Robusto", count := 10,
          price := 50, shipping := 10, price_per_stick := 0,
          original_quantity := some 10, purchase_history := [] }
        5 30 5).count = 10 + 5 ∧
    (combine_cigar_purchases (43/500)
        { brand := "Padron", cigar := "1926", size := "Robusto", count := 10,
          price := 50, shipping := 10, price_per_stick := 0,
          original_quantity := some 10, purchase_history := [] }
        5 30 5).price = 50 + 30 ∧
    (combine_cigar_purchases (43/500)
        { brand := "Padron", cigar := "1926", size := "Robusto", count := 10,
          price := 50, shipping := 10, price_per_stick := 0,
          original_quantity := some 10, purchase_history := [] }
        5 30 5).shipping = 10 + 5 ∧
    (combine_cigar_purchases (43/500)
        { brand := "Padron", cigar := "1926", size := "Robusto", count := 10,
          price := 50, shipping := 10, price_per_stick := 0,
          original_quantity := some 10, purchase_history := [] }
        5 30 5).original_quantity = some (10 + 5) ∧
    (combine_cigar_purchases (43/500)
        { brand := "Padron", cigar := "1926", size := "Robusto", count := 10,
          price := 50, shipping := 10, price_per_stick := 0,
          original_quantity := some 10, purchase_history := [] }
        5 30 5).price_per_stick =
      (50 + 30) / (((10 + 5 : ℤ)) : ℚ) * (1 + 43/500) +
        (10 + 5) / (((10 + 5 : ℤ)) : ℚ) :=
  C2_merge_invariant (43/500)
    { brand := "Padron", cigar := "1926", size := "Robusto", count := 10,
      price := 50, shipping := 10, price_per_stick := 0,
      original_quantity := some 10, purchase_history := [] }
    5 30 5 (by norm_num) (by norm_num)

/-- C5 counterexample: merging 5 units / $30 / $5 into a lot whose count
is 0 leaves `purchase_history` empty — no audit entry is appended in the
zero-count branch, refuting the claim that an entry is appended in both
branches. -/
theorem C5_counterexample :
    (combine_cigar_purchases (43/500)
        { brand := "A", cigar := "X", size := "R", count := 0, price := 12,
          shipping := 3, price_per_stick := 0, original_quantity := some 4,
          purchase_history := [] }
        5 30 5).purchase_history = [] := by
  decide

/-- C5 amended: `combine_cigar_purchases` appends exactly one
`purchase_history` entry recording the incoming purchase when the existing
count is positive, and appends nothing (leaving the history unchanged)
when the existing count is zero or negative. -/
theorem C5_amended_history_append (tax : ℚ) (L : Cigar) (nc : ℤ)
    (np ns : ℚ) :
    (0 < L.count →
      (combine_cigar_purchases tax L nc np ns).purchase_history =
        L.purchase_history ++
          [{ count := nc, price := np, shipping := ns,
             price_per_stick := unit_cost tax np ns nc }]) ∧
    (L.count ≤ 0 →
      (combine_cigar_purchases tax L nc np ns).purchase_history =
        L.purchase_history) := by
  constructor <;> intro h
  · simp [combine_cigar_purchases, if_pos h]
  · simp [combine_cigar_purchases, if_neg (by omega : ¬ 0 < L.count)]

/-- Witness for the amended C5 at a positive-count lot. -/
theorem C5_amended_history_append_witness :
    (combine_cigar_purchases (43/500)
        { brand := "A", cigar := "X", size := "R", count := 10, price := 50,
          shipping := 10, price_per_stick := 0, original_quantity := some 10,
          purchase_history := [] }
        5 30 5).purchase_history =
      [] ++ [{ count := 5, price := 30, shipping := 5,
               price_per_stick := unit_cost (43/500) 30 5 5 }] :=
  (C5_amended_history_append (43/500)
    { brand := "A", cigar := "X", size := "R", count := 10, price := 50,
      shipping := 10, price_per_stick := 0, original_quantity := some 10,
      purchase_history := [] }
    5 30 5).1 (by norm_num)

/-- One row of the sales ledger, as created by `sell_selected`
(wall-clock `date` omitted). -/
structure SaleRecord where
  transaction_id : String
  brand : String
  cigar : String
  size : String
  price_per_stick : ℚ
  quantity : ℤ
  total_cost : ℚ
deriving DecidableEq

/-- Engine state touched by sales and their reversal: the lot list and the
sales ledger. -/
structure InvState where
  inventory : List Cigar
  sales_history : List SaleRecord
deriving DecidableEq

/-- Per-lot step of `CigarInventory.sell_selected` (src/main.py:4313).
`sel` maps a lot name to the requested quantity: `none` models an
unchecked checkbox or an unparsable spinbox value (the `continue`
branches). A quantity below 1 is skipped; a quantity above the current
count is skipped with a warning; otherwise the count is decremented and a
sale record capturing `price_per_stick` at sale time is produced. -/
def sellStep (tid : String) (sel : String → Option ℤ) (c : Cigar) :
    Cigar × Option SaleRecord :=
  match sel c.cigar with
  | none => (c, none)
  | some quantity =>
    if quantity < 1 then (c, none)
    else if quantity ≤ c.count then
      ({ c with count := c.count - quantity },
       some { transaction_id := tid, brand := c.brand, cigar := c.cigar,
              size := c.size, price_per_stick := c.price_per_stick,
              quantity := quantity,
              total_cost := c.price_per_stick * (quantity : ℚ) })
    else (c, none)

/-- Model of `CigarInventory.sell_selected` (src/main.py:4305): one pass
over the inventory applying `sellStep`, appending the created sale
records (all sharing the generated transaction id `tid`) to the ledger. -/
def sell_selected (tid : String) (sel : String → Option ℤ)
    (st : InvState) : InvState :=
  { inventory := st.inventory.map (fun c => (sellStep tid sel c).1)
    sales_history := st.sales_history ++
      st.inventory.filterMap (fun c => (sellStep tid sel c).2) }

/-- Inventory half of `show_return_confirmation.confirm_return`
(src/main.py:4818): add the returned quantity to the count of the first
lot whose `cigar` name equals the entry's name, by case-sensitive `==` on
the name field alone. -/
def add_back_first (name : String) (q : ℤ) : List Cigar → List Cigar
  | [] => []
  | c :: rest =>
    if c.cigar = name then { c with count := c.count + q } :: rest
    else c :: add_back_first name q rest

/-- Ledger half of `show_return_confirmation.confirm_return`
(src/main.py:4824): find the first sale record of the transaction with the
given cigar name; remove it if the returned quantity covers its quantity,
otherwise reduce its quantity and recompute its total cost. -/
def update_sales_first (tid name : String) (q : ℤ) :
    List SaleRecord → List SaleRecord
  | [] => []
  | s :: rest =>
    if s.transaction_id = tid ∧ s.cigar = name then
      if s.quantity ≤ q then rest
      else { s with quantity := s.quantity - q,
                    total_cost := s.price_per_stick *
                      ((s.quantity - q : ℤ) : ℚ) } :: rest
    else s :: update_sales_first tid name q rest

/-- Model of `show_return_confirmation.confirm_return` (src/main.py:4814)
for transaction `tid`: process each `(cigar_name, return_qty)` item of the
return list against the inventory and the sales ledger. -/
def confirm_return (tid : String) (return_list : List (String × ℤ))
    (st : InvState) : InvState :=
  return_list.foldl
    (fun acc item =>
      { inventory := add_back_first item.1 item.2 acc.inventory
        sales_history := update_sales_first tid item.1 item.2
          acc.sales_history })
    st

theorem add_back_first_append_of_ne (name : String) (q : ℤ)
    (pre rest : List Cigar) (h : ∀ c ∈ pre, c.cigar ≠ name) :
    add_back_first name q (pre ++ rest) =
      pre ++ add_back_first name q rest := by
  induction pre with
  | nil => rfl
  | cons c pre ih =>
    simp only [List.cons_append, add_back_first,
      if_neg (h c (List.mem_cons_self c pre)), List.append_eq]
    rw [ih (fun x hx => h x (List.mem_cons_of_mem c hx))]

theorem update_sales_first_append_of_ne (tid name : String) (q : ℤ)
    (pre rest : List SaleRecord)
    (h : ∀ s ∈ pre, ¬ (s.transaction_id = tid ∧ s.cigar = name)) :
    update_sales_first tid name q (pre ++ rest) =
      pre ++ update_sales_first tid name q rest := by
  induction pre with
  | nil => rfl
  | cons s pre ih =>
    simp only [List.cons_append, update_sales_first,
      if_neg (h s (List.mem_cons_self s pre)), List.append_eq]
    rw [ih (fun x hx => h x (List.mem_cons_of_mem s hx))]

theorem sellStep_not_selected (tid : String) (sel : String → Option ℤ)
    (l : List Cigar) (h : ∀ c ∈ l, sel c.cigar = none) :
    l.map (fun c => (sellStep tid sel c).1) = l ∧
      l.filterMap (fun c => (sellStep tid sel c).2) = [] := by
  induction l with
  | nil => exact ⟨rfl, rfl⟩
  | cons c l ih =>
    have hc := h c (List.mem_cons_self c l)
    have ih2 := ih (fun x hx => h x (List.mem_cons_of_mem c hx))
    have hstep : sellStep tid sel c = (c, none) := by simp [sellStep, hc]
    exact ⟨by simp only [List.map_cons, hstep, ih2.1],
           by simp only [List.filterMap_cons, hstep, ih2.2]⟩

/-- C3: selling quantity `q` from the unique lot named `k` under a fresh
transaction id and then confirming a return of `q` for that entry restores
the full engine state: the lot's count is back to its pre-sale value and
the sale's ledger entry is gone. -/
theorem C3_sale_reversal_roundtrip (tid k : String) (q : ℤ)
    (pre post : List Cigar) (L : Cigar) (sh : List SaleRecord)
    (hpre : ∀ c ∈ pre, c.cigar ≠ k) (hL : L.cigar = k)
    (hpost : ∀ c ∈ post, c.cigar ≠ k)
    (hq : 1 ≤ q) (hstock : q ≤ L.count)
    (hfresh : ∀ s ∈ sh, s.transaction_id ≠ tid) :
    confirm_return tid [(k, q)]
      (sell_selected tid (fun n => if n = k then some q else none)
        ⟨pre ++ L :: post, sh⟩) =
      ⟨pre ++ L :: post, sh⟩ := by
  set sel : String → Option ℤ := fun n => if n = k then some q else none
    with hsel
  have hpre2 : ∀ c ∈ pre, sel c.cigar = none := by
    intro c hc; simp [hsel, hpre c hc]
  have hpost2 : ∀ c ∈ post, sel c.cigar = none := by
    intro c hc; simp [hsel, hpost c hc]
  have hstepL : sellStep tid sel L =
      ({ L with count := L.count - q },
       some { transaction_id := tid, brand := L.brand, cigar := L.cigar,
              size := L.size, price_per_stick := L.price_per_stick,
              quantity := q,
              total_cost := L.price_per_stick * (q : ℚ) }) := by
    simp [sellStep, hsel, hL, if_neg (show ¬ q < 1 by omega),
      if_pos hstock]
  have hinv : (pre ++ L :: post).map (fun c => (sellStep tid sel c).1) =
      pre ++ { L with count := L.count - q } :: post := by
    simp [List.map_append, (sellStep_not_selected tid sel pre hpre2).1,
      (sellStep_not_selected tid sel post hpost2).1, hstepL]
  have hfm : (pre ++ L :: post).filterMap
      (fun c => (sellStep tid sel c).2) =
      [{ transaction_id := tid, brand := L.brand, cigar := L.cigar,
         size := L.size, price_per_stick := L.price_per_stick,
         quantity := q, total_cost := L.price_per_stick * (q : ℚ) }] := by
    simp [List.filterMap_append,
      (sellStep_not_selected tid sel pre hpre2).2,
      (sellStep_not_selected tid sel post hpost2).2, hstepL]
  have hA : add_back_first k q
      (pre ++ { L with count := L.count - q } :: post) = pre ++ L :: post := by
    rw [add_back_first_append_of_ne k q pre _ hpre]
    have hcig : ({ L with count := L.count - q } : Cigar).cigar = k := hL
    have hcount : L.count - q + q = L.count := by omega
    simp only [add_back_first, if_pos hcig]
    rw [show ({ L with count := L.count - q + q } : Cigar) = L by
      rw [hcount]]
  have hB : update_sales_first tid k q
      (sh ++ [{ transaction_id := tid, brand := L.brand, cigar := L.cigar,
                size := L.size, price_per_stick := L.price_per_stick,
                quantity := q,
                total_cost := L.price_per_stick * (q : ℚ) }]) = sh := by
    rw [update_sales_first_append_of_ne tid k q sh _
      (fun s hs hcon => hfresh s hs hcon.1)]
    simp [update_sales_first, hL]
  simp only [sell_selected, confirm_return, List.foldl_cons, List.foldl_nil]
  rw [hinv, hfm, hA, hB]

/-- Witness for C3: a five-unit lot, a sale of two, a return of two. -/
theorem C3_sale_reversal_roundtrip_witness :
    confirm_return "t1" [("X", 2)]
      (sell_selected "t1" (fun n => if n = "X" then some 2 else none)
        ⟨[] ++ { brand := "A", cigar := "X", size := "R", count := 5,
                 price := 10, shipping := 2, price_per_stick := 1,
                 original_quantity := some 5,
                 purchase_history := [] } :: [], []⟩) =
      ⟨[] ++ { brand := "A", cigar := "X", size := "R", count := 5,
               price := 10, shipping := 2, price_per_stick := 1,
               original_quantity := some 5,
               purchase_history := [] } :: [], []⟩ :=
  C3_sale_reversal_roundtrip "t1" "X" 2 [] []
    { brand := "A", cigar := "X", size := "R", count := 5, price := 10,
      shipping := 2, price_per_stick := 1, original_quantity := some 5,
      purchase_history := [] }
    [] (by simp) rfl (by simp) (by norm_num) (by decide) (by simp)

/-- C4 counterexample: a lot whose stored unit cost is consistent with its
fields (price 10, shipping 0, count 2, tax 8.6%) is sold one unit;
`sell_selected` decrements the count but does not recompute
`price_per_stick`, so the stored value no longer equals the CostModel
recompute from the lot's current fields. -/
theorem C4_counterexample :
    ¬ ∀ c ∈ (sell_selected "t1" (fun n => if n = "X" then some 1 else none)
        ⟨[{ brand := "A", cigar := "X", size := "R", count := 2, price := 10,
            shipping := 0, price_per_stick := unit_cost (43/500) 10 0 2,
            original_quantity := some 2, purchase_history := [] }],
         []⟩).inventory,
      c.price_per_stick = unit_cost (43/500) c.price c.shipping c.count := by
  intro h
  have hinv : (sell_selected "t1" (fun n => if n = "X" then some 1 else none)
      ⟨[{ brand := "A", cigar := "X", size := "R", count := 2, price := 10,
          shipping := 0, price_per_stick := unit_cost (43/500) 10 0 2,
          original_quantity := some 2, purchase_history := [] }],
       []⟩).inventory =
      [{ brand := "A", cigar := "X", size := "R", count := 2 - 1, price := 10,
         shipping := 0, price_per_stick := unit_cost (43/500) 10 0 2,
         original_quantity := some 2, purchase_history := [] }] := by
    norm_num [sell_selected, sellStep]
  have h2 := h _ (hinv ▸ List.mem_singleton.mpr rfl)
  simp only [unit_cost] at h2
  norm_num at h2

theorem sellStep_keeps_price_per_stick (tid : String)
    (sel : String → Option ℤ) (l : List Cigar) :
    (l.map (fun c => (sellStep tid sel c).1)).map Cigar.price_per_stick =
      l.map Cigar.price_per_stick := by
  induction l with
  | nil => rfl
  | cons c l ih =>
    have hpps : ((sellStep tid sel c).1).price_per_stick =
        c.price_per_stick := by
      cases h : sel c.cigar with
      | none => simp [sellStep, h]
      | some qq =>
        simp only [sellStep, h]
        split_ifs <;> rfl
    simp only [List.map_cons, hpps, ih]

/-- C4 amended: the merge path recomputes `price_per_stick` so that it
matches the CostModel formula applied to the lot's resulting price,
shipping and count; the sale path (`sell_selected`) decrements counts
while leaving every lot's stored `price_per_stick` unchanged — it does
not recompute it. -/
theorem C4_amended_recompute_on_merge_not_sale (tax : ℚ) (L : Cigar)
    (nc : ℤ) (np ns : ℚ) (tid : String) (sel : String → Option ℤ)
    (st : InvState) :
    (combine_cigar_purchases tax L nc np ns).price_per_stick =
      unit_cost tax (combine_cigar_purchases tax L nc np ns).price
        (combine_cigar_purchases tax L nc np ns).shipping
        (combine_cigar_purchases tax L nc np ns).count ∧
    (sell_selected tid sel st).inventory.map Cigar.price_per_stick =
      st.inventory.map Cigar.price_per_stick := by
  constructor
  · by_cases h : 0 < L.count <;> simp [combine_cigar_purchases, h]
  · simpa [sell_selected] using
      sellStep_keeps_price_per_stick tid sel st.inventory

/-- Case-insensitive identity match on the (brand, name, size) triple, as
written inline at src/main.py:986, src/main.py:1136 and
src/main.py:3667 (Python `.lower()` equality on all three fields). -/
abbrev matches_identity (brand cigar_name size : String) (c : Cigar) : Prop :=
  c.brand.toLower = brand.toLower ∧ c.cigar.toLower = cigar_name.toLower ∧
    c.size.toLower = size.toLower

/-- Model of `CigarInventory.check_for_duplicate_cigar` (src/main.py:3664):
first inventory record matching the triple case-insensitively, else
`None`. -/
def check_for_duplicate_cigar (brand cigar_name size : String)
    (inventory : List Cigar) : Option Cigar :=
  inventory.find? (fun c => decide (matches_identity brand cigar_name size c))

/-- Per-item inventory mutation shared by
`show_resupply_history_window.delete_resupply_order` (src/main.py:983) and
`show_resupply_history_window.return_selected_resupply_items`
(src/main.py:1135): find the first lot matching the triple
case-insensitively; if its count covers the quantity, subtract it,
otherwise skip the item (reported, not fatal). -/
def remove_first_match (brand cigar_name size : String) (q : ℤ) :
    List Cigar → List Cigar
  | [] => []
  | c :: rest =>
    if matches_identity brand cigar_name size c then
      (if q ≤ c.count then { c with count := c.count - q } else c) :: rest
    else c :: remove_first_match brand cigar_name size q rest

theorem remove_first_match_append_of_ne (brand cigar_name size : String)
    (q : ℤ) (pre rest : List Cigar)
    (h : ∀ c ∈ pre, ¬ matches_identity brand cigar_name size c) :
    remove_first_match brand cigar_name size q (pre ++ rest) =
      pre ++ remove_first_match brand cigar_name size q rest := by
  induction pre with
  | nil => rfl
  | cons c pre ih =>
    simp only [List.cons_append, remove_first_match,
      if_neg (h c (List.mem_cons_self c pre)), List.append_eq]
    rw [ih (fun x hx => h x (List.mem_cons_of_mem c hx))]

/-- C7 counterexample: the inventory holds two lots both named "N" — the
first with brand "X" / size "S1" and count 5, the second with brand "Y" /
size "S2" and count 7.  A sale entry for (brand "Y", name "N", size "S2")
is reversed with quantity 2; `confirm_return` credits the FIRST lot whose
name equals "N" (counts become [7, 7]), not the lot whose full
(brand, name, size) triple matches the entry (which would give [5, 9]). -/
theorem C7_counterexample :
    (confirm_return "t7" [("N", 2)]
      ⟨[{ brand := "X", cigar := "N", size := "S1", count := 5, price := 0,
          shipping := 0, price_per_stick := 0, original_quantity := none,
          purchase_history := [] },
        { brand := "Y", cigar := "N", size := "S2", count := 7, price := 0,
          shipping := 0, price_per_stick := 0, original_quantity := none,
          purchase_history := [] }],
       [{ transaction_id := "t7", brand := "Y", cigar := "N", size := "S2",
          price_per_stick := 0, quantity := 2, total_cost := 0 }]⟩).inventory.map
      Cigar.count = [7, 7] := by
  decide

/-- C7 amended: the resupply-side lookups (order deletion, partial
resupply return, duplicate detection) resolve a lot by case-insensitive
equality on all three of brand, name and size, acting on the first such
match; sale reversal (`confirm_return`) instead resolves the lot by exact,
case-sensitive equality on the name field alone, crediting the first lot
with that name even when its brand or size differ from the entry's. -/
theorem C7_amended_lookup_keys :
    (∀ (pre post : List Cigar) (L : Cigar) (cigar_name : String) (q : ℤ),
        (∀ c ∈ pre, c.cigar ≠ cigar_name) → L.cigar = cigar_name →
        add_back_first cigar_name q (pre ++ L :: post) =
          pre ++ { L with count := L.count + q } :: post) ∧
    (∀ (pre post : List Cigar) (L : Cigar) (brand cigar_name size : String)
        (q : ℤ),
        (∀ c ∈ pre, ¬ matches_identity brand cigar_name size c) →
        matches_identity brand cigar_name size L →
        remove_first_match brand cigar_name size q (pre ++ L :: post) =
          pre ++ (if q ≤ L.count then { L with count := L.count - q } else L)
            :: post) ∧
    (∀ (pre post : List Cigar) (L : Cigar) (brand cigar_name size : String),
        (∀ c ∈ pre, ¬ matches_identity brand cigar_name size c) →
        matches_identity brand cigar_name size L →
        check_for_duplicate_cigar brand cigar_name size (pre ++ L :: post) =
          some L) := by
  refine ⟨?_, ?_, ?_⟩
  · intro pre post L cigar_name q hpre hL
    rw [add_back_first_append_of_ne cigar_name q pre _ hpre]
    simp [add_back_first, hL]
  · intro pre post L brand cigar_name size q hpre hL
    rw [remove_first_match_append_of_ne brand cigar_name size q pre _ hpre]
    simp [remove_first_match, hL]
  · intro pre post L brand cigar_name size hpre hL
    induction pre with
    | nil =>
      simp only [check_for_duplicate_cigar, List.nil_append]
      rw [List.find?_cons_of_pos _ (by simpa using hL)]
    | cons c pre ih =>
      have hc := hpre c (List.mem_cons_self c pre)
      simp only [check_for_duplicate_cigar, List.cons_append] at ih ⊢
      rw [List.find?_cons_of_neg _ (by simpa using hc)]
      exact ih (fun x hx => hpre x (List.mem_cons_of_mem c hx))

/-- Witness for the amended C7 at concrete single-lot inventories. -/
theorem C7_amended_lookup_keys_witness :
    (add_back_first "N" 2
        ([] ++ ({ brand := "X", cigar := "N", size := "S1", count := 5,
                  price := 0, shipping := 0, price_per_stick := 0,
                  original_quantity := none, purchase_history := [] } : Cigar)
          :: []) =
      [] ++ ({ brand := "X", cigar := "N", size := "S1", count := 5 + 2,
               price := 0, shipping := 0, price_per_stick := 0,
               original_quantity := none, purchase_history := [] } : Cigar)
        :: []) ∧
    (remove_first_match "X" "N" "S" 2
        ([] ++ ({ brand := "X", cigar := "N", size := "S", count := 5,
                  price := 0, shipping := 0, price_per_stick := 0,
                  original_quantity := none, purchase_history := [] } : Cigar)
          :: []) =
      [] ++ (if (2 : ℤ) ≤ (5 : ℤ) then
               ({ brand := "X", cigar := "N", size := "S", count := 5 - 2,
                  price := 0, shipping := 0, price_per_stick := 0,
                  original_quantity := none, purchase_history := [] } : Cigar)
             else
               { brand := "X", cigar := "N", size := "S", count := 5,
                 price := 0, shipping := 0, price_per_stick := 0,
                 original_quantity := none, purchase_history := [] })
        :: []) ∧
    (check_for_duplicate_cigar "X" "N" "S"
        ([] ++ ({ brand := "X", cigar := "N", size := "S", count := 5,
                  price := 0, shipping := 0, price_per_stick := 0,
                  original_quantity := none, purchase_history := [] } : Cigar)
          :: []) =
      some { brand := "X", cigar := "N", size := "S", count := 5, price := 0,
             shipping := 0, price_per_stick := 0, original_quantity := none,
             purchase_history := [] }) :=
  ⟨C7_amended_lookup_keys.1 [] [] _ "N" 2 (by simp) rfl,
   C7_amended_lookup_keys.2.1 [] [] _ "X" "N" "S" 2 (by simp) ⟨rfl, rfl, rfl⟩,
   C7_amended_lookup_keys.2.2 [] [] _ "X" "N" "S" (by simp) ⟨rfl, rfl, rfl⟩⟩

/-- Inventory effect of `show_resupply_history_window.delete_resupply_order`
(src/main.py:983): for each (brand, name, size, quantity) item of the
deleted order, remove the quantity from the first case-insensitively
matching lot when its count covers it, otherwise skip the item.  The
removal of the order's ledger rows is not modelled here (it does not touch
lot counts). -/
def delete_resupply_order (items : List (String × String × String × ℤ))
    (inventory : List Cigar) : List Cigar :=
  items.foldl
    (fun acc it => remove_first_match it.1 it.2.1 it.2.2.1 it.2.2.2 acc)
    inventory

/-- Inventory effect of
`show_resupply_history_window.return_selected_resupply_items`
(src/main.py:1135): identical per-item guard-and-decrement against the
first case-insensitively matching lot; the proportional shrinking of the
order's ledger rows is not modelled here (it does not touch lot counts). -/
def return_selected_resupply_items
    (items : List (String × String × String × ℤ))
    (inventory : List Cigar) : List Cigar :=
  items.foldl
    (fun acc it => remove_first_match it.1 it.2.1 it.2.2.1 it.2.2.2 acc)
    inventory

theorem remove_first_match_nonneg (brand cigar_name size : String) (q : ℤ)
    (l : List Cigar) (h : ∀ c ∈ l, 0 ≤ c.count) :
    ∀ c ∈ remove_first_match brand cigar_name size q l, 0 ≤ c.count := by
  induction l with
  | nil => intro x hx; simp [remove_first_match] at hx
  | cons c l ih =>
    intro x hx
    have hc := h c (List.mem_cons_self c l)
    have hl : ∀ y ∈ l, 0 ≤ y.count :=
      fun y hy => h y (List.mem_cons_of_mem c hy)
    rw [remove_first_match] at hx
    split at hx
    · rcases List.mem_cons.mp hx with h1 | h1
      · subst h1
        split <;> simp <;> omega
      · exact hl x h1
    · rcases List.mem_cons.mp hx with h1 | h1
      · subst h1; exact hc
      · exact ih hl x h1

theorem foldl_remove_first_match_nonneg
    (items : List (String × String × String × ℤ)) (inv : List Cigar)
    (h : ∀ c ∈ inv, 0 ≤ c.count) :
    ∀ c ∈ items.foldl
        (fun acc it => remove_first_match it.1 it.2.1 it.2.2.1 it.2.2.2 acc)
        inv, 0 ≤ c.count := by
  induction items generalizing inv with
  | nil => exact h
  | cons it items ih =>
    exact ih _ (remove_first_match_nonneg it.1 it.2.1 it.2.2.1 it.2.2.2 inv h)

theorem sellStep_nonneg (tid : String) (sel : String → Option ℤ) (c : Cigar)
    (h : 0 ≤ c.count) : 0 ≤ ((sellStep tid sel c).1).count := by
  cases hs : sel c.cigar with
  | none => simpa [sellStep, hs] using h
  | some q =>
    simp only [sellStep, hs]
    split_ifs with h1 h2
    · exact h
    · simp; omega
    · exact h

/-- C10: starting from non-negative lot counts, none of the three
stock-removing operations — processing a sale, deleting a resupply order,
or partially returning resupply items — drives any lot's count below
zero: each path first checks that the current count covers the requested
quantity and skips the item otherwise. -/
theorem C10_no_negative_stock (tid : String) (sel : String → Option ℤ)
    (st : InvState) (items : List (String × String × String × ℤ))
    (inv : List Cigar)
    (hst : ∀ c ∈ st.inventory, 0 ≤ c.count)
    (hinv : ∀ c ∈ inv, 0 ≤ c.count) :
    (∀ c ∈ (sell_selected tid sel st).inventory, 0 ≤ c.count) ∧
    (∀ c ∈ delete_resupply_order items inv, 0 ≤ c.count) ∧
    (∀ c ∈ return_selected_resupply_items items inv, 0 ≤ c.count) := by
  refine ⟨?_, ?_, ?_⟩
  · intro c hc
    simp only [sell_selected, List.mem_map] at hc
    obtain ⟨a, ha, rfl⟩ := hc
    exact sellStep_nonneg tid sel a (hst a ha)
  · exact foldl_remove_first_match_nonneg items inv hinv
  · exact foldl_remove_first_match_nonneg items inv hinv

/-- Witness for C10 on a one-lot inventory: a sale of 2 from a count of
3, and a matching resupply deletion / return of 2. -/
theorem C10_no_negative_stock_witness :
    (∀ c ∈ (sell_selected "t1" (fun n => if n = "N" then some 2 else none)
        ⟨[{ brand := "B", cigar := "N", size := "S", count := 3, price := 0,
            shipping := 0, price_per_stick := 0, original_quantity := none,
            purchase_history := [] }], []⟩).inventory, 0 ≤ c.count) ∧
    (∀ c ∈ delete_resupply_order [("B", "N", "S", 2)]
        [{ brand := "B", cigar := "N", size := "S", count := 3, price := 0,
           shipping := 0, price_per_stick := 0, original_quantity := none,
           purchase_history := [] }], 0 ≤ c.count) ∧
    (∀ c ∈ return_selected_resupply_items [("B", "N", "S", 2)]
        [{ brand := "B", cigar := "N", size := "S", count := 3, price := 0,
           shipping := 0, price_per_stick := 0, original_quantity := none,
           purchase_history := [] }], 0 ≤ c.count) :=
  C10_no_negative_stock "t1" (fun n => if n = "N" then some 2 else none)
    ⟨[{ brand := "B", cigar := "N", size := "S", count := 3, price := 0,
        shipping := 0, price_per_stick := 0, original_quantity := none,
        purchase_history := [] }], []⟩
    [("B", "N", "S", 2)]
    [{ brand := "B", cigar := "N", size := "S", count := 3, price := 0,
       shipping := 0, price_per_stick := 0, original_quantity := none,
       purchase_history := [] }]
    (by intro c hc; simp at hc; subst hc; decide)
    (by intro c hc; simp at hc; subst hc; decide)

/-- One item of a resupply order as handled by
`calculate_resupply_costs`: entered count and total price, plus the
fields the calculation writes back. -/
structure RItem where
  count : ℤ
  price : ℚ
  proportional_shipping : ℚ
  proportional_tax : ℚ
  price_per_stick : ℚ
deriving DecidableEq

/-- Per-item body of the update loop of
`CigarInventory.calculate_resupply_costs` (src/main.py:1362): allocated
shipping is `shipping_per_cigar * count`; tax is
`(price/count) * tax_rate * count` with a zero guard on the count; the
item's price per stick is `(price + tax + shipping) / count`, likewise
guarded. -/
def resupply_cost_item (shipping_per_cigar tax_rate : ℚ) (c : RItem) :
    RItem :=
  let prop_ship := shipping_per_cigar * (c.count : ℚ)
  let base_price_per_stick :=
    if 0 < c.count then c.price / (c.count : ℚ) else 0
  let tax_per_stick := base_price_per_stick * tax_rate
  let prop_tax := tax_per_stick * (c.count : ℚ)
  let total_cost := c.price + prop_tax + prop_ship
  { c with
    proportional_shipping := prop_ship
    proportional_tax := prop_tax
    price_per_stick :=
      if 0 < c.count then total_cost / (c.count : ℚ) else 0 }

/-- Model of `CigarInventory.calculate_resupply_costs`
(src/main.py:1336): with a zero total count every item's allocations are
zeroed; otherwise `shipping_per_cigar = total_shipping / total_cigars`
and each item is updated by `resupply_cost_item` with
`tax_rate = tax_rate_percent / 100`. -/
def calculate_resupply_costs (total_shipping tax_rate_percent : ℚ)
    (order : List RItem) : List RItem :=
  let tax_rate := tax_rate_percent / 100
  let total_cigars := (order.map RItem.count).sum
  if total_cigars = 0 then
    order.map (fun c =>
      { c with proportional_shipping := 0, proportional_tax := 0,
               price_per_stick := 0 })
  else
    order.map
      (resupply_cost_item (total_shipping / (total_cigars : ℚ)) tax_rate)

theorem list_sum_map_mul_left {α : Type} (a : ℚ) (f : α → ℚ)
    (l : List α) : (l.map (fun x => a * f x)).sum = a * (l.map f).sum := by
  induction l with
  | nil => simp
  | cons x l ih => simp [ih, mul_add]

/-- C6: for a resupply order with positive total count `n` and all item
counts positive, each item's allocated shipping is
`(totalShipping / n) * count`, its tax is its base price times the tax
rate (computed on the base price only), and the per-item shipping
allocations sum back to the order's total shipping. -/
theorem C6_resupply_allocation (t rp : ℚ) (order : List RItem)
    (hpos : ∀ c ∈ order, 0 < c.count)
    (hn : 0 < (order.map RItem.count).sum) :
    ((calculate_resupply_costs t rp order).map RItem.proportional_shipping =
      order.map (fun c =>
        t / (((order.map RItem.count).sum : ℤ) : ℚ) * (c.count : ℚ))) ∧
    ((calculate_resupply_costs t rp order).map RItem.proportional_tax =
      order.map (fun c => c.price * (rp / 100))) ∧
    ((calculate_resupply_costs t rp order).map
      RItem.proportional_shipping).sum = t := by
  have hne : (order.map RItem.count).sum ≠ 0 := by omega
  have hcast : (((order.map RItem.count).sum : ℤ) : ℚ) ≠ 0 := by
    exact_mod_cast hne
  have hship : (calculate_resupply_costs t rp order).map
      RItem.proportional_shipping =
      order.map (fun c =>
        t / (((order.map RItem.count).sum : ℤ) : ℚ) * (c.count : ℚ)) := by
    simp only [calculate_resupply_costs, if_neg hne, List.map_map]
    rfl
  refine ⟨hship, ?_, ?_⟩
  · simp only [calculate_resupply_costs, if_neg hne, List.map_map]
    apply List.map_congr_left
    intro c hc
    have hcpos := hpos c hc
    have hc0 : (c.count : ℚ) ≠ 0 := by
      exact_mod_cast (by omega : c.count ≠ 0)
    simp only [Function.comp, resupply_cost_item, if_pos hcpos]
    field_simp
    ring
  · rw [hship, list_sum_map_mul_left]
    have hsum : (order.map (fun c => ((RItem.count c : ℤ) : ℚ))).sum =
        (((order.map RItem.count).sum : ℤ) : ℚ) := by
      rw [Int.cast_list_sum, List.map_map]; rfl
    rw [hsum, div_mul_cancel₀ t hcast]

/-- Order list for the C6 witness: the spec §8 scenario of one item of
10 units at $50 total price. -/
def c6_order : List RItem :=
  [{ count := 10, price := 50, proportional_shipping := 0,
     proportional_tax := 0, price_per_stick := 0 }]

/-- Witness for C6 at the spec §8 scenario: one item of 10 units at $50,
total shipping $10, tax rate 8.6%. -/
theorem C6_resupply_allocation_witness :
    ((calculate_resupply_costs 10 (43/5) c6_order).map
      RItem.proportional_shipping =
      c6_order.map (fun c =>
        10 / (((c6_order.map RItem.count).sum : ℤ) : ℚ) * (c.count : ℚ))) ∧
    ((calculate_resupply_costs 10 (43/5) c6_order).map
      RItem.proportional_tax =
      c6_order.map (fun c => c.price * ((43/5) / 100))) ∧
    ((calculate_resupply_costs 10 (43/5) c6_order).map
      RItem.proportional_shipping).sum = 10 :=
  C6_resupply_allocation 10 (43/5) c6_order
    (by intro c hc; simp [c6_order] at hc; subst hc; decide) (by decide)

/-- Rollup values computed by `update_inventory_totals` for display. -/
structure Totals where
  total_count : ℤ
  total_value : ℚ
  total_items : ℤ
  avg_shipping : ℚ
  avg_price_stick : ℚ
deriving DecidableEq

/-- Loop body of `CigarInventory.update_inventory_totals`
(src/main.py:4104): a lot with positive count contributes its count, its
`price_per_stick * count` value, and one to the item tally; other lots
contribute nothing. -/
def totals_step (a : ℤ × ℚ × ℤ) (c : Cigar) : ℤ × ℚ × ℤ :=
  if 0 < c.count then
    (a.1 + c.count, a.2.1 + c.price_per_stick * (c.count : ℚ), a.2.2 + 1)
  else a

/-- Model of `CigarInventory.update_inventory_totals` (src/main.py:4098):
the loop accumulates total count, total value and the number of stocked
lots; average shipping is the sum of `shipping` over lots with positive
count divided by the number of such lots (0 when there are none);
average price per stick is total value over total count (0 when the
total count is not positive). -/
def update_inventory_totals (inventory : List Cigar) : Totals :=
  let acc := inventory.foldl totals_step (0, 0, 0)
  let total_count := acc.1
  let total_value := acc.2.1
  let total_items := acc.2.2
  let avg_shipping :=
    if 0 < total_items then
      ((inventory.filter (fun c => decide (0 < c.count))).map
        Cigar.shipping).sum / (total_items : ℚ)
    else 0
  let avg_price_stick :=
    if 0 < total_count then total_value / (total_count : ℚ) else 0
  ⟨total_count, total_value, total_items, avg_shipping, avg_price_stick⟩

theorem totals_step_items_count (inventory : List Cigar) :
    ∀ a : ℤ × ℚ × ℤ, (inventory.foldl totals_step a).2.2 =
      a.2.2 + ((inventory.filter
        (fun c => decide (0 < c.count))).length : ℤ) := by
  induction inventory with
  | nil => intro a; simp
  | cons c inv ih =>
    intro a
    by_cases h : 0 < c.count
    · simp only [List.foldl_cons, ih, totals_step, if_pos h,
        List.filter_cons, decide_eq_true h, if_true, List.length_cons]
      push_cast
      omega
    · simp only [List.foldl_cons, ih, totals_step, if_neg h,
        List.filter_cons]
      rw [if_neg (by simpa using h)]

/-- C9: average shipping is the unweighted arithmetic mean of `shipping`
over exactly the lots with positive count — each such lot contributing
once, regardless of its count — and is 0 when no lot has positive
count. -/
theorem C9_average_shipping (inventory : List Cigar) :
    ((∃ c ∈ inventory, 0 < c.count) →
      (update_inventory_totals inventory).avg_shipping =
        ((inventory.filter (fun c => decide (0 < c.count))).map
          Cigar.shipping).sum /
          ((inventory.filter (fun c => decide (0 < c.count))).length : ℚ)) ∧
    ((∀ c ∈ inventory, ¬ 0 < c.count) →
      (update_inventory_totals inventory).avg_shipping = 0) := by
  have hitems : (inventory.foldl totals_step (0, 0, 0)).2.2 =
      ((inventory.filter (fun c => decide (0 < c.count))).length : ℤ) := by
    simpa using totals_step_items_count inventory (0, 0, 0)
  constructor
  · intro hex
    obtain ⟨c, hc, hcpos⟩ := hex
    have hmem : c ∈ inventory.filter (fun c => decide (0 < c.count)) :=
      List.mem_filter.mpr ⟨hc, decide_eq_true hcpos⟩
    have hlen : 0 < (inventory.filter
        (fun c => decide (0 < c.count))).length :=
      List.length_pos.mpr (List.ne_nil_of_mem hmem)
    simp only [update_inventory_totals, hitems]
    rw [if_pos (by exact_mod_cast hlen)]
    push_cast
    rfl
  · intro hall
    have hnil : inventory.filter (fun c => decide (0 < c.count)) = [] := by
      rw [List.filter_eq_nil_iff]
      intro c hc
      simpa using hall c hc
    simp only [update_inventory_totals, hitems, hnil]
    norm_num

/-- Inventory for the C9 witness: lots with counts 10 and 5 and shipping
5 and 10, plus a zero-count lot with shipping 100 that must not
contribute. -/
def c9_inventory : List Cigar :=
  [{ brand := "A", cigar := "X", size := "R", count := 10, price := 0,
     shipping := 5, price_per_stick := 0, original_quantity := none,
     purchase_history := [] },
   { brand := "B", cigar := "Y", size := "R", count := 5, price := 0,
     shipping := 10, price_per_stick := 0, original_quantity := none,
     purchase_history := [] },
   { brand := "C", cigar := "Z", size := "R", count := 0, price := 0,
     shipping := 100, price_per_stick := 0, original_quantity := none,
     purchase_history := [] }]

/-- Witness for C9 at `c9_inventory`. -/
theorem C9_average_shipping_witness :
    (update_inventory_totals c9_inventory).avg_shipping =
      ((c9_inventory.filter (fun c => decide (0 < c.count))).map
        Cigar.shipping).sum /
        ((c9_inventory.filter (fun c => decide (0 < c.count))).length : ℚ) :=
  (C9_average_shipping c9_inventory).1
    ⟨{ brand := "A", cigar := "X", size := "R", count := 10, price := 0,
       shipping := 5, price_per_stick := 0, original_quantity := none,
       purchase_history := [] },
     by simp [c9_inventory], by norm_num⟩

/-- C8 counterexample: a numeric `original_quantity` of 0 together with a
positive count reaches the division `shipping / original_quantity`, whose
`ZeroDivisionError` is not caught by the `except (ValueError, TypeError)`
clause — the call raises instead of returning a value, refuting the
claim that no division-by-zero error can occur. -/
theorem C8_counterexample :
    calculate_price_per_stick (43/500) (.num 1) (.num 1)
      (.num ((1 : ℤ) : ℚ)) (some (.num 0)) = none := by
  have h1 : pyInt (.num ((1 : ℤ) : ℚ)) = some 1 := pyInt_num_intCast 1
  simp only [calculate_price_per_stick, pyFloat, h1]
  norm_num

/-- C8 amended: `calculate_price_per_stick` returns 0 whenever the parsed
count is zero or negative, returns 0 without raising when any of price,
shipping or count is a non-numeric string, and never raises when
`original_quantity` is omitted; the only division-by-zero escape is the
one exhibited by the counterexample, where a numeric `original_quantity`
of 0 is passed alongside a positive count. -/
theorem C8_amended_fail_soft (tax : ℚ) (price shipping count : PyVal)
    (oq : Option PyVal) :
    (∀ c : ℤ, pyInt count = some c → c ≤ 0 →
      calculate_price_per_stick tax price shipping count oq = some 0) ∧
    (∀ s : String, (price = .badStr s ∨ shipping = .badStr s ∨
        count = .badStr s) →
      calculate_price_per_stick tax price shipping count oq = some 0) ∧
    calculate_price_per_stick tax price shipping count none ≠ none := by
  refine ⟨?_, ?_, ?_⟩
  · intro c hc hle
    cases hp : pyFloat price <;> cases hq : pyFloat shipping <;>
      simp [calculate_price_per_stick, hp, hq, hc, if_pos hle]
  · rintro s (rfl | rfl | rfl)
    · simp [calculate_price_per_stick, pyFloat]
    · cases hp : pyFloat price <;>
        simp [calculate_price_per_stick, hp, pyFloat]
    · cases hp : pyFloat price <;> cases hq : pyFloat shipping <;>
        simp [calculate_price_per_stick, hp, hq, pyInt]
  · cases hp : pyFloat price <;> cases hq : pyFloat shipping <;>
      cases hi : pyInt count <;>
        simp only [calculate_price_per_stick, hp, hq, hi] <;>
      first
        | (split <;> simp)
        | simp

/-- Witness for the amended C8: a parsed count of 0 yields 0. -/
theorem C8_amended_fail_soft_witness :
    calculate_price_per_stick (43/500) (.num 2) (.num 3)
      (.num ((0 : ℤ) : ℚ)) none = some 0 :=
  (C8_amended_fail_soft (43/500) (.num 2) (.num 3) (.num ((0 : ℤ) : ℚ))
    none).1 0 (pyInt_num_intCast 0) le_rfl

end CigarInventory
